import Mathlib

/-!
Shallow embedding of the color-splash pipeline in `samples/balloon/balloon2.py`:
annotation loading (`load_balloon`), polygon rasterization (`load_mask`),
image reference lookup (`image_reference`), compositing (`color_splash`) and
the sequential video frame loop of `detect_and_color_splash`.

Pixel channel values are 8-bit naturals; intermediate float computations of
numpy/skimage are modelled exactly over `ℚ`.
-/

attribute [local semireducible] Rat.add Rat.mul Rat.sub Rat.inv

namespace Balloon

/-- An 8-bit RGB pixel: `(r, g, b)` channel values. -/
abbrev Pixel := ℕ × ℕ × ℕ

/-- An image: a list of rows, each row a list of pixels (`[height, width, 3]`). -/
abbrev Image := List (List Pixel)

/-- One boolean instance-mask layer (`[height, width]`). -/
abbrev MaskLayer := List (List Bool)

/-- An instance mask set, the `[height, width, instance_count]` bool array of the
code, represented as its list of per-instance layers. -/
abbrev Mask := List MaskLayer

/-- Model of `skimage.color.rgb2gray` (weights 0.2125, 0.7154, 0.0721 on channels scaled
to `[0,1]`) followed by the `* 255` of `color_splash`: the scaled luminance. -/
def lum (p : Pixel) : ℚ :=
  (2125 * (p.1 : ℚ) + 7154 * (p.2.1 : ℚ) + 721 * (p.2.2 : ℚ)) / 10000

/-- The scaled grayscale grid `skimage.color.rgb2gray(image) * 255`
(one value per pixel; `gray2rgb` replicates it over the 3 channels). -/
def grayGrid (img : Image) : List (List ℚ) :=
  img.map (fun row => row.map lum)

/-- Row-major ravel of the 3-channel gray image `gray`: each pixel contributes
its (replicated) gray value three times. -/
def ravel3 (g : List (List ℚ)) : List ℚ :=
  g.flatten.flatMap (fun v => [v, v, v])

/-- Running sums starting from `s` (helper for `cumsum`). -/
def cumsumFrom : ℚ → List ℚ → List ℚ
  | _, [] => []
  | s, x :: xs => (s + x) :: cumsumFrom (s + x) xs

/-- Model of `np.cumsum` over a rational list. -/
def cumsum (l : List ℚ) : List ℚ := cumsumFrom 0 l

/-- Tail of the argmax scan: best index so far, best value, next index. -/
def argmaxFrom : ℕ → ℚ → ℕ → List ℚ → ℕ
  | best, _, _, [] => best
  | best, bv, i, x :: xs =>
    if bv < x then argmaxFrom i x (i + 1) xs else argmaxFrom best bv (i + 1) xs

/-- Model of `np.argmax`: index of the first occurrence of the maximum
(0 on `[]`). -/
def argmax (l : List ℚ) : ℕ :=
  match l with
  | [] => 0
  | x :: xs => argmaxFrom 0 x 1 xs

/-- Model of `skimage.filters.threshold_otsu` with the default 256 bins: if all values
are equal, return that value (the constant-image fast path); otherwise build a
256-bin histogram over `[min, max]` (last bin closed), take bin centers, and
return the center of the bin maximizing the between-class variance
`weight1[:-1] * weight2[1:] * (mean1[:-1] - mean2[1:])**2` (first argmax). -/
def threshold_otsu (vals : List ℚ) : ℚ :=
  match vals with
  | [] => 0
  | v :: vs =>
    let mn := vs.foldl min v
    let mx := vs.foldl max v
    if mn = mx then v
    else
      let nbins : ℕ := 256
      let binOf : ℚ → ℕ := fun x => min (Int.toNat ⌊(x - mn) * nbins / (mx - mn)⌋) (nbins - 1)
      let hist : List ℚ := (List.range nbins).map
        (fun b => ((v :: vs).countP (fun x => binOf x == b) : ℚ))
      let centers : List ℚ := (List.range nbins).map
        (fun b => mn + ((b : ℚ) + 1 / 2) * (mx - mn) / nbins)
      let weight1 := cumsum hist
      let weight2 := (cumsum hist.reverse).reverse
      let hc := List.zipWith (fun a b => a * b) hist centers
      let mean1 := List.zipWith (fun a b => a / b) (cumsum hc) weight1
      let mean2 := (List.zipWith (fun a b => a / b) (cumsum hc.reverse) (cumsum hist.reverse)).reverse
      let variance12 := List.zipWith
        (fun (p : ℚ × ℚ) (q : ℚ × ℚ) => p.1 * p.2 * (q.1 - q.2) ^ 2)
        (weight1.dropLast.zip (weight2.drop 1))
        (mean1.dropLast.zip (mean2.drop 1))
      centers.getD (argmax variance12) 0

/-- Model of `astype(np.uint8)` on a nonnegative float value: truncate, wrap mod 256. -/
def u8 (q : ℚ) : ℕ := (⌊q⌋).toNat % 256

/-- Model of `astype(np.uint8)` on an integer pixel. -/
def u8px (p : Pixel) : Pixel := (p.1 % 256, p.2.1 % 256, p.2.2 % 256)

/-- Read pixel `(i, j)` of an image (0 outside). -/
def pxD (img : Image) (i j : ℕ) : Pixel := (img.getD i []).getD j (0, 0, 0)

/-- Read entry `(i, j)` of a rational grid (0 outside). -/
def gridD (g : List (List ℚ)) (i j : ℕ) : ℚ := (g.getD i []).getD j 0

/-- Read entry `(i, j)` of a mask layer (false outside). -/
def layerD (l : MaskLayer) (i j : ℕ) : Bool := (l.getD i []).getD j false

/-- The aggregated mask `np.sum(mask, -1, keepdims=True) >= 1` at `(i, j)`:
the count of instance layers that are True there is at least 1. -/
def aggAt (mask : Mask) (i j : ℕ) : Bool :=
  decide (1 ≤ (mask.map (fun layer => if layerD layer i j then (1 : ℕ) else 0)).sum)

/-- The only failure `color_splash` can produce: numpy refusing to broadcast
the `np.where` operands (there is no dimension check of its own). -/
inductive SplashError
  | broadcast
deriving DecidableEq, Repr

instance {e a : Type} [DecidableEq e] [DecidableEq a] : DecidableEq (Except e a) := fun a b =>
  match a, b with
  | Except.ok x, Except.ok y =>
    if h : x = y then Decidable.isTrue (by rw [h])
    else Decidable.isFalse (fun he => h (Except.ok.inj he))
  | Except.error e, Except.error f =>
    if h : e = f then Decidable.isTrue (by rw [h])
    else Decidable.isFalse (fun he => h (Except.error.inj he))
  | Except.ok _, Except.error _ => Decidable.isFalse (fun he => Except.noConfusion he)
  | Except.error _, Except.ok _ => Decidable.isFalse (fun he => Except.noConfusion he)

/-- The image `gray.astype(np.uint8)`: the scaled-grayscale
conversion emitted by the zero-instance branch of `color_splash`. -/
def grayImage (img : Image) : Image :=
  (grayGrid img).map (fun row => row.map (fun v => (u8 v, u8 v, u8 v)))

/-- Model of `color_splash(image, mask)`:
`gray = gray2rgb(rgb2gray(image)) * 255`, `thresh = threshold_otsu(gray)`,
`binary_thresh_img = gray > thresh`; if the mask has instance layers, collapse
them with `np.sum(..., -1, keepdims=True) >= 1` and return
`np.where(mask, image, binary_thresh_img).astype(np.uint8)` under numpy
broadcasting of the `[mh, mw, 1]` condition against the `[h, w, 3]` operands;
otherwise return `gray.astype(np.uint8)`. -/
def color_splash (img : Image) (mask : Mask) : Except SplashError Image :=
  let g := grayGrid img
  let thresh := threshold_otsu (ravel3 g)
  let h := img.length
  let w := (img.headD []).length
  if 0 < mask.length then
    let mh := (mask.headD []).length
    let mw := ((mask.headD []).headD []).length
    if (mh = h ∨ mh = 1 ∨ h = 1) ∧ (mw = w ∨ mw = 1 ∨ w = 1) then
      Except.ok <|
        (List.range (max h mh)).map fun i =>
          (List.range (max w mw)).map fun j =>
            if aggAt mask (if mh = 1 then 0 else i) (if mw = 1 then 0 else j) then
              u8px (pxD img (if h = 1 then 0 else i) (if w = 1 then 0 else j))
            else
              let b : ℕ :=
                if thresh < gridD g (if h = 1 then 0 else i) (if w = 1 then 0 else j) then 1 else 0
              (b, b, b)
    else Except.error SplashError.broadcast
  else Except.ok (grayImage img)

/-! ### Polygon rasterization: `load_mask` -/

/-- A polygon as stored in an annotation's `points`: ordered `(x, y)` vertex
pairs (numeric, possibly fractional). -/
abbrev Polygon := List (ℚ × ℚ)

/-- skimage's `point_in_polygon` crossing test (even-odd rule): walk the edges
`(j, i)` with `j` starting at the last vertex, toggling on each edge whose
y-span straddles `y` and whose x-interpolation at `y` lies strictly right
of `x`. -/
def point_in_polygon (xp yp : List ℚ) (x y : ℚ) : Bool :=
  let n := xp.length
  ((List.range n).foldl
    (fun (st : Bool × ℕ) i =>
      let j := st.2
      let xpi := xp.getD i 0
      let ypi := yp.getD i 0
      let xpj := xp.getD j 0
      let ypj := yp.getD j 0
      let cross :=
        ((ypi ≤ y ∧ y < ypj) ∨ (ypj ≤ y ∧ y < ypi)) ∧
          x < (xpj - xpi) * (y - ypi) / (ypj - ypi) + xpi
      (if cross then !st.1 else st.1, i))
    (false, n - 1)).1

/-- Model of `skimage.draw.polygon(r, c)` as called in `load_mask` — crucially with NO
`shape` argument: iterate the bounding box with the lower corner clamped at 0
(`minr = int(max(0, r.min()))`, `maxr = int(ceil(r.max()))`, same for columns,
no upper clamp), and keep the `(row, col)` points that pass the crossing test.
`none` models the `ValueError` numpy raises on `r.min()` of an empty array. -/
def draw_polygon (r c : List ℚ) : Option (List (ℕ × ℕ)) :=
  match r, c with
  | r0 :: rs, c0 :: cs =>
    let minr : ℤ := ⌊max 0 (rs.foldl min r0)⌋
    let maxr : ℤ := ⌈rs.foldl max r0⌉
    let minc : ℤ := ⌊max 0 (cs.foldl min c0)⌋
    let maxc : ℤ := ⌈cs.foldl max c0⌉
    some <|
      ((List.range (maxr + 1 - minr).toNat).map (fun k => minr.toNat + k)).flatMap fun (ri : ℕ) =>
        ((List.range (maxc + 1 - minc).toNat).map (fun k => minc.toNat + k)).filterMap fun (ci : ℕ) =>
          if point_in_polygon (c0 :: cs) (r0 :: rs) (ci : ℚ) (ri : ℚ) then some (ri, ci)
          else none
  | _, _ => none

/-- The fill coordinates `rr, cc = skimage.draw.polygon(y, x)` for one
annotation polygon: the code collects `x = [k[0] for k in polygon]` and
`y = [k[1] for k in polygon]` and passes `y` as rows, `x` as columns. -/
def polygonCoords (poly : Polygon) : Option (List (ℕ × ℕ)) :=
  draw_polygon (poly.map Prod.snd) (poly.map Prod.fst)

/-- The failures `load_mask` can produce: numpy's `ValueError` on an empty
coordinate array, and the `IndexError` of the fancy-indexing assignment
`mask[rr, cc, index] = 1` when some coordinate reaches past the mask's
height or width. -/
inductive MaskError
  | valueError
  | indexError
deriving DecidableEq, Repr

/-- The layer produced by `mask[rr, cc, index] = 1` on an all-zeros layer,
when every coordinate is in bounds. -/
def fillLayer (coords : List (ℕ × ℕ)) (height width : ℕ) : MaskLayer :=
  (List.range height).map fun i =>
    (List.range width).map fun j => coords.contains (i, j)

/-- One iteration of the mask-building loop of `load_mask`: run the fill and
perform `mask[rr, cc, index] = 1`, which numpy bounds-checks — it raises
`IndexError` when some fill coordinate reaches past the grid (the produced
coordinates are never negative, so wrap-around indexing cannot occur). -/
def rasterOne (height width : ℕ) (poly : Polygon) : Except MaskError MaskLayer :=
  match polygonCoords poly with
  | none => Except.error MaskError.valueError
  | some coords =>
    if coords.all (fun p => decide (p.1 < height) && decide (p.2 < width)) then
      Except.ok (fillLayer coords height width)
    else Except.error MaskError.indexError

/-- Model of `load_mask` restricted to its mask-building loop: starting from
`np.zeros([height, width, len(polygons)])`, fill each polygon's layer in
order via `skimage.draw.polygon` and `mask[rr, cc, index] = 1`; the first
failing assignment aborts the whole call. -/
def load_mask (polys : List Polygon) (height width : ℕ) : Except MaskError Mask :=
  polys.mapM (rasterOne height width)

/-! ### Annotation loading: `load_balloon` -/

/-- One entry of an annotation file's `shapes` list. -/
structure Shape where
  label : String
  shape_type : String
  points : List (ℚ × ℚ)
deriving DecidableEq, Repr

/-- One annotation file, identified by its base name (the json file name
without extension, as found by `glob` in the subset directory). -/
structure AnnFile where
  base : String
  shapes : List Shape
deriving DecidableEq, Repr

/-- The fixed label→class-id vocabulary `labelz` of `load_balloon`.  Note the
transposed spelling of the second key. -/
def labelz : List (String × ℕ) :=
  [("blocked bike lane", 1), ("blcoked the crosswalk", 2)]

/-- Membership/lookup in `labelz` (`label in labelz` / `labelz[label]`). -/
def lookupLabel (l : String) : Option ℕ :=
  (labelz.find? (fun kv => kv.1 == l)).map Prod.snd

/-- The retained shapes of one annotation file: the loop keeps a shape only
when `label in labelz` and `shape["shape_type"] == "polygon"`, silently
skipping the rest. -/
def retainedShapes (shapes : List Shape) : List Shape :=
  shapes.filter fun s => (lookupLabel s.label).isSome && (s.shape_type == "polygon")

/-- One record of the registry, as passed to `add_image`. -/
structure ImageRecord where
  source : String
  image_id : String
  path : String
  width : ℕ
  height : ℕ
  polygons : List Polygon
  num_ids : List ℕ
deriving DecidableEq, Repr

/-- Failures of `load_balloon`: the `assert subset in ["train", "val"]` and
the `skimage.io.imread` of a missing/unreadable image file, which propagates
and aborts the whole load. -/
inductive LoadError
  | invalidSubset
  | missingImageFile
deriving DecidableEq, Repr

/-- Model of `os.path.join` for the relative-path shapes that occur here. -/
def osJoin (a b : String) : String := a ++ "/" ++ b

/-- The string `str(p.with_suffix('.jpg'))` for the annotation file
`dir/base.json`: the same path with the image extension. -/
def jpgSuffix (dir : String) (a : AnnFile) : String := osJoin dir (a.base ++ ".jpg")

/-- The `image_path = os.path.join(dataset_dir, str(p.with_suffix('.jpg')))`
of `load_balloon` (note `dataset_dir` has already been re-joined with the
subset at this point). -/
def imagePathOf (dir : String) (a : AnnFile) : String := osJoin dir (jpgSuffix dir a)

/-- The record `add_image("reported", image_id=suff, path=image_path, ...)`
built for one kept annotation whose image read returned `(height, width)`:
`polygons` are the retained shapes' points and `num_ids` re-looks the
retained labels up in `labelz`. -/
def recordOf (dir : String) (a : AnnFile) (hw : ℕ × ℕ) : ImageRecord :=
  let kept := retainedShapes a.shapes
  { source := "reported"
    image_id := jpgSuffix dir a
    path := imagePathOf dir a
    width := hw.2
    height := hw.1
    polygons := kept.map (·.points)
    num_ids := (kept.map (·.label)).filterMap lookupLabel }

/-- The body of the per-file loop of `load_balloon`: skip the file when no
shape survives the filter (`if len(labels)==0: continue`); otherwise read the
image (a missing/unreadable image raises, aborting the whole load) and append
the record built by `add_image` to the registry. -/
def loadStep (readImage : String → Option (ℕ × ℕ)) (dir : String)
    (acc : List ImageRecord) (a : AnnFile) : Except LoadError (List ImageRecord) :=
  if (retainedShapes a.shapes).length = 0 then Except.ok acc
  else
    match readImage (imagePathOf dir a) with
    | none => Except.error LoadError.missingImageFile
    | some hw => Except.ok (acc ++ [recordOf dir a hw])

/-- Model of `load_balloon(dataset_dir, subset)` over the annotation files
found in `dataset_dir/subset`; `readImage` models
`skimage.io.imread(...).shape[:2]`, returning `(height, width)` or `none`
for a missing/unreadable file.  The `assert subset in ["train", "val"]`
guards the whole load. -/
def load_balloon (readImage : String → Option (ℕ × ℕ)) (dataset_dir subset : String)
    (files : List AnnFile) : Except LoadError (List ImageRecord) :=
  if subset = "train" ∨ subset = "val" then
    files.foldlM (loadStep readImage (osJoin dataset_dir subset)) []
  else Except.error LoadError.invalidSubset

/-! ### `image_reference` -/

/-- The fields of `self.image_info[image_id]` that `image_reference` reads. -/
structure ImageInfo where
  source : String
  path : String
deriving DecidableEq, Repr

/-- Model of `image_reference`: return `info["path"]` when the record's source is
`"reported"`; otherwise CALL the parent-class `image_reference` but fall off
the end of the function, so the caller receives `None` — the parent's result
is discarded.  `parentRef` stands for `super().image_reference`
(`mrcnn/utils.py`, not under `src/`; Modelled from the spec:
`getReference(imageId) -> path`, so it returns a path string). -/
def image_reference (parentRef : ImageInfo → String) (info : ImageInfo) : Option String :=
  if info.source = "reported" then some info.path
  else
    let _ := parentRef info
    none

/-! ### The video frame loop of `detect_and_color_splash` -/

/-- The reversal `image[..., ::-1]`: reverse the channel order of every pixel. -/
def reverseChannels (img : Image) : Image :=
  img.map (fun row => row.map (fun p => (p.2.2, p.2.1, p.1)))

/-- Processing of one successfully read frame: BGR→RGB channel reversal,
`model.detect` (the external collaborator, a parameter), `color_splash`,
RGB→BGR reversal for the writer. -/
def processFrame (detect : Image → Mask) (frame : Image) : Except SplashError Image :=
  let image := reverseChannels frame
  (color_splash image (detect image)).map reverseChannels

/-- Outcome of the video branch: the frames handed to `vwriter.write`, in
order, and how many times `vwriter.release()` ran. -/
structure VideoOutcome where
  written : List Image
  released : ℕ
deriving DecidableEq, Repr

/-- The `while success:` loop of `detect_and_color_splash` followed by
`vwriter.release()`.  `reads` lists the results of successive
`vcapture.read()` calls (`none` = failed read / end of stream; reads past the
end of the list also fail).  A failed read ends the loop and reaches the
single `release()`; an exception raised while processing a frame propagates
out of the loop and skips the `release()`. -/
def runVideo (proc : Image → Except SplashError Image) :
    List (Option Image) → VideoOutcome
  | [] => ⟨[], 1⟩
  | none :: _ => ⟨[], 1⟩
  | some f :: rest =>
    match proc f with
    | Except.error _ => ⟨[], 0⟩
    | Except.ok g =>
      let r := runVideo proc rest
      ⟨g :: r.written, r.released⟩

/-! ### Shape predicates -/

/-- The grid is a rectangular `h × w` list of lists. -/
def GridDims {α : Type} (g : List (List α)) (h w : ℕ) : Prop :=
  g.length = h ∧ ∀ row ∈ g, row.length = w

/-- Every channel of every pixel is a valid 8-bit value. -/
def ValidPixels (img : Image) : Prop :=
  ∀ row ∈ img, ∀ p ∈ row, p.1 < 256 ∧ p.2.1 < 256 ∧ p.2.2 < 256

/-- Every layer of the mask is a rectangular `h × w` grid. -/
def MaskDims (mask : Mask) (h w : ℕ) : Prop :=
  ∀ layer ∈ mask, GridDims layer h w

instance {α : Type} (g : List (List α)) (h w : ℕ) : Decidable (GridDims g h w) := by
  unfold GridDims; infer_instance

instance (img : Image) : Decidable (ValidPixels img) := by
  unfold ValidPixels; infer_instance

instance (mask : Mask) (h w : ℕ) : Decidable (MaskDims mask h w) := by
  unfold MaskDims; infer_instance

/-! ### List access helpers -/

theorem getD_range_map {α : Type} (f : ℕ → α) (n i : ℕ) (d : α) (hi : i < n) :
    ((List.range n).map f).getD i d = f i := by
  rw [List.getD_eq_getElem?_getD, List.getElem?_map, List.getElem?_range hi]
  rfl

theorem getD_map_lt {α β : Type} (f : α → β) (l : List α) (i : ℕ) (d : β) (d' : α)
    (h : i < l.length) :
    (l.map f).getD i d = f (l.getD i d') := by
  rw [List.getD_eq_getElem?_getD, List.getD_eq_getElem?_getD, List.getElem?_map]
  rw [List.getElem?_eq_getElem h]
  rfl

theorem getD_mem {α : Type} (l : List α) (i : ℕ) (d : α) (h : i < l.length) :
    l.getD i d ∈ l := by
  rw [List.getD_eq_getElem?_getD, List.getElem?_eq_getElem h]
  exact List.getElem_mem h

theorem headD_mem {α : Type} (l : List α) (d : α) (h : l ≠ []) : l.headD d ∈ l := by
  cases l with
  | nil => exact absurd rfl h
  | cons a t => exact List.mem_cons_self a t

/-- The aggregated mask is True at a pixel exactly when some instance layer is
True there (logical OR across the instance dimension). -/
theorem aggAt_iff (mask : Mask) (i j : ℕ) :
    aggAt mask i j = true ↔ ∃ layer ∈ mask, layerD layer i j = true := by
  induction mask with
  | nil => simp [aggAt]
  | cons l t ih =>
    simp only [aggAt, decide_eq_true_eq, List.map_cons, List.sum_cons] at ih ⊢
    by_cases hl : layerD l i j = true
    · simp only [if_pos hl, List.mem_cons]
      constructor
      · intro _
        exact ⟨l, Or.inl rfl, hl⟩
      · intro _
        exact Nat.le_add_right 1 _
    · simp only [if_neg hl, Nat.zero_add, List.mem_cons]
      rw [ih]
      constructor
      · rintro ⟨layer, hm, hp⟩
        exact ⟨layer, Or.inr hm, hp⟩
      · rintro ⟨layer, hml, hp⟩
        rcases hml with rfl | hm
        · exact absurd hp hl
        · exact ⟨layer, hm, hp⟩


theorem if_one_idx (n k : ℕ) (hk : k < n) : (if n = 1 then 0 else k) = k := by
  by_cases hn : n = 1
  · subst hn
    have hk0 : k = 0 := by omega
    simp [hk0]
  · simp [hn]

/-- On matching dimensions, `color_splash` succeeds and every output pixel is
the original image pixel under the aggregated mask and the Otsu-binarized
0/1 value elsewhere. -/
theorem color_splash_matching (img : Image) (mask : Mask) (h w : ℕ)
    (hd : GridDims img h w) (hm : MaskDims mask h w) (hne : mask ≠ [])
    (hh : 0 < h) (hw : 0 < w) :
    color_splash img mask = Except.ok ((List.range h).map fun i =>
      (List.range w).map fun j =>
        if aggAt mask i j then u8px (pxD img i j)
        else if threshold_otsu (ravel3 (grayGrid img)) < gridD (grayGrid img) i j
          then ((1, 1, 1) : Pixel) else ((0, 0, 0) : Pixel)) := by
  have hml : 0 < mask.length := List.length_pos.mpr hne
  have himg : img.length = h := hd.1
  have himgne : img ≠ [] := List.length_pos.mp (himg ▸ hh)
  have hheadw : (img.headD []).length = w := hd.2 _ (headD_mem img [] himgne)
  have hmem : mask.headD [] ∈ mask := headD_mem mask [] hne
  have hmh : (mask.headD []).length = h := (hm _ hmem).1
  have hlne : mask.headD [] ≠ [] := List.length_pos.mp (hmh ▸ hh)
  have hmw : ((mask.headD []).headD []).length = w :=
    (hm _ hmem).2 _ (headD_mem _ [] hlne)
  simp only [color_splash]
  rw [if_pos hml,
    if_pos (⟨Or.inl (hmh.trans himg.symm), Or.inl (hmw.trans hheadw.symm)⟩ :
      ((mask.headD []).length = img.length ∨ (mask.headD []).length = 1 ∨ img.length = 1) ∧
      (((mask.headD []).headD []).length = (img.headD []).length ∨
        ((mask.headD []).headD []).length = 1 ∨ (img.headD []).length = 1))]
  congr 1
  rw [himg, hheadw, hmh, hmw, Nat.max_self, Nat.max_self]
  apply List.map_congr_left
  intro i hi
  rw [List.mem_range] at hi
  apply List.map_congr_left
  intro j hj
  rw [List.mem_range] at hj
  rw [if_one_idx h i hi, if_one_idx w j hj]
  by_cases ha : aggAt mask i j = true
  · simp [ha]
  · simp only [if_neg ha]
    by_cases hb : threshold_otsu (ravel3 (grayGrid img)) < gridD (grayGrid img) i j
    · simp [hb]
    · simp [hb]

theorem pxD_range_map (f : ℕ → ℕ → Pixel) (h w i j : ℕ) (hi : i < h) (hj : j < w) :
    pxD ((List.range h).map fun a => (List.range w).map fun b => f a b) i j = f i j := by
  unfold pxD
  rw [getD_range_map _ _ _ _ hi, getD_range_map _ _ _ _ hj]

theorem u8px_valid (img : Image) (hv : ValidPixels img) (i j h w : ℕ)
    (hd : GridDims img h w) (hi : i < h) (hj : j < w) :
    u8px (pxD img i j) = pxD img i j := by
  have hi' : i < img.length := hd.1 ▸ hi
  have hrow : img.getD i [] ∈ img := getD_mem img i [] hi'
  have hj' : j < (img.getD i []).length := (hd.2 _ hrow) ▸ hj
  have hp : (img.getD i []).getD j (0, 0, 0) ∈ img.getD i [] := getD_mem _ j _ hj'
  obtain ⟨h1, h2, h3⟩ := hv _ hrow _ hp
  unfold u8px pxD
  rw [Nat.mod_eq_of_lt h1, Nat.mod_eq_of_lt h2, Nat.mod_eq_of_lt h3]

/-- Rebuilding a rectangular 8-bit image pixel by pixel returns the image. -/
theorem rebuild_image (img : Image) (h w : ℕ) (hd : GridDims img h w)
    (hv : ValidPixels img) :
    ((List.range h).map fun i => (List.range w).map fun j => u8px (pxD img i j)) = img := by
  apply List.ext_getElem?
  intro i
  by_cases hi : i < h
  · have hi' : i < img.length := hd.1 ▸ hi
    rw [List.getElem?_map, List.getElem?_range hi, List.getElem?_eq_getElem hi',
      Option.map_some']
    congr 1
    have hrow : img[i] ∈ img := List.getElem_mem hi'
    have hwlen : img[i].length = w := hd.2 _ hrow
    apply List.ext_getElem?
    intro j
    by_cases hj : j < w
    · have hj' : j < img[i].length := hwlen ▸ hj
      rw [List.getElem?_map, List.getElem?_range hj, List.getElem?_eq_getElem hj',
        Option.map_some']
      have e1 : img.getD i [] = img[i] := by
        rw [List.getD_eq_getElem?_getD, List.getElem?_eq_getElem hi', Option.getD_some]
      have hpx : pxD img i j = img[i][j] := by
        unfold pxD
        rw [e1, List.getD_eq_getElem?_getD, List.getElem?_eq_getElem hj', Option.getD_some]
      rw [hpx]
      have hmem : img[i][j] ∈ img[i] := List.getElem_mem hj'
      obtain ⟨h1, h2, h3⟩ := hv _ hrow _ hmem
      unfold u8px
      rw [Nat.mod_eq_of_lt h1, Nat.mod_eq_of_lt h2, Nat.mod_eq_of_lt h3]
    · have hj' : img[i].length ≤ j := by omega
      have hr : (List.range w).length ≤ j := by
        rw [List.length_range]
        omega
      rw [List.getElem?_map, List.getElem?_eq_none hr, List.getElem?_eq_none hj']
      rfl
  · have hlen := hd.1
    have hi' : img.length ≤ i := by omega
    have hr : ((List.range h).map fun a => (List.range w).map fun b => u8px (pxD img a b)).length ≤ i := by
      rw [List.length_map, List.length_range]
      omega
    rw [List.getElem?_eq_none hr, List.getElem?_eq_none hi']


/-! ### Claim C8 -/

/-- C8: for every image and instance mask set of matching dimensions with at
least one layer, every output pixel of `color_splash` at which at least one
instance layer is True equals the original color pixel; with an all-True
aggregated mask the result is pixel-identical to the original image. -/
theorem C8_mask_keeps_original_pixels (img : Image) (mask : Mask) (h w : ℕ)
    (hd : GridDims img h w) (hv : ValidPixels img) (hm : MaskDims mask h w)
    (hne : mask ≠ []) (hh : 0 < h) (hw : 0 < w) :
    ∃ out, color_splash img mask = Except.ok out ∧
      (∀ i j, i < h → j < w → (∃ layer ∈ mask, layerD layer i j = true) →
        pxD out i j = pxD img i j) ∧
      ((∀ i j, i < h → j < w → ∃ layer ∈ mask, layerD layer i j = true) →
        out = img) := by
  refine ⟨_, color_splash_matching img mask h w hd hm hne hh hw, ?_, ?_⟩
  · intro i j hi hj hex
    have ha : aggAt mask i j = true := (aggAt_iff mask i j).mpr hex
    rw [pxD_range_map _ h w i j hi hj, if_pos ha,
      u8px_valid img hv i j h w hd hi hj]
  · intro hall
    have hcong : ((List.range h).map fun i => (List.range w).map fun j =>
        if aggAt mask i j then u8px (pxD img i j)
        else if threshold_otsu (ravel3 (grayGrid img)) < gridD (grayGrid img) i j
          then ((1, 1, 1) : Pixel) else ((0, 0, 0) : Pixel)) =
        (List.range h).map fun i => (List.range w).map fun j => u8px (pxD img i j) := by
      apply List.map_congr_left
      intro i hi
      rw [List.mem_range] at hi
      apply List.map_congr_left
      intro j hj
      rw [List.mem_range] at hj
      rw [if_pos ((aggAt_iff mask i j).mpr (hall i j hi hj))]
    rw [hcong, rebuild_image img h w hd hv]

/-- Witness for C8 at a concrete 1×2 image with an all-True single layer. -/
theorem C8_witness :
    ∃ out, color_splash [[(10, 20, 30), (200, 100, 50)]] [[[true, true]]] = Except.ok out ∧
      (∀ i j, i < 1 → j < 2 → (∃ layer ∈ ([[[true, true]]] : Mask), layerD layer i j = true) →
        pxD out i j = pxD [[(10, 20, 30), (200, 100, 50)]] i j) ∧
      ((∀ i j, i < 1 → j < 2 → ∃ layer ∈ ([[[true, true]]] : Mask), layerD layer i j = true) →
        out = [[(10, 20, 30), (200, 100, 50)]]) :=
  C8_mask_keeps_original_pixels [[(10, 20, 30), (200, 100, 50)]] [[[true, true]]] 1 2
    (by decide) (by decide) (by decide) (by decide) (by decide) (by decide)

/-! ### Claim C1 -/

/-- C1 (amended): where the aggregated mask is False, the emitted background
pixel is the binarized 0/1 value of the Otsu threshold comparison
(`gray > thresh` cast to uint8), not the scaled-grayscale value. -/
theorem C1_background_is_binarized (img : Image) (mask : Mask) (h w : ℕ)
    (hd : GridDims img h w) (hm : MaskDims mask h w) (hne : mask ≠ [])
    (hh : 0 < h) (hw : 0 < w) :
    ∃ out, color_splash img mask = Except.ok out ∧
      ∀ i j, i < h → j < w → aggAt mask i j = false →
        pxD out i j =
          if threshold_otsu (ravel3 (grayGrid img)) < gridD (grayGrid img) i j
            then ((1, 1, 1) : Pixel) else ((0, 0, 0) : Pixel) := by
  refine ⟨_, color_splash_matching img mask h w hd hm hne hh hw, ?_⟩
  intro i j hi hj ha
  rw [pxD_range_map _ h w i j hi hj, if_neg (by simp [ha])]

/-- Witness for C1's amended statement at a concrete 1×2 image. -/
theorem C1_witness :
    ∃ out, color_splash [[(0, 0, 0), (255, 255, 255)]] [[[false, false]]] = Except.ok out ∧
      ∀ i j, i < 1 → j < 2 → aggAt [[[false, false]]] i j = false →
        pxD out i j =
          if threshold_otsu (ravel3 (grayGrid [[(0, 0, 0), (255, 255, 255)]])) <
              gridD (grayGrid [[(0, 0, 0), (255, 255, 255)]]) i j
            then ((1, 1, 1) : Pixel) else ((0, 0, 0) : Pixel) :=
  C1_background_is_binarized [[(0, 0, 0), (255, 255, 255)]] [[[false, false]]] 1 2
    (by decide) (by decide) (by decide) (by decide) (by decide)

set_option maxRecDepth 40000 in
/-- Counterexample to C1 as stated: on a black/white 1×2 image with one
all-False layer, the background pixel at `(0, 1)` is `(1, 1, 1)` (the Otsu
comparison binarized), while the scaled-grayscale background there is
`(255, 255, 255)`. -/
theorem C1_counterexample :
    color_splash [[(0, 0, 0), (255, 255, 255)]] [[[false, false]]] =
      Except.ok [[(0, 0, 0), (1, 1, 1)]] ∧
    grayImage [[(0, 0, 0), (255, 255, 255)]] = [[(0, 0, 0), (255, 255, 255)]] ∧
    aggAt [[[false, false]]] 0 1 = false := by
  exact ⟨by decide, by decide, by decide⟩

/-! ### Claim C9 -/

/-- C9: with zero instance layers, `color_splash` returns exactly the scaled
grayscale conversion of the input — the luminance replicated over the three
channels, scaled to 0–255 and cast to 8 bits. -/
theorem C9_zero_instances_grayscale (img : Image) (mask : Mask)
    (hm : mask.length = 0) :
    color_splash img mask = Except.ok (grayImage img) ∧
    ∀ i j, i < img.length → j < (img.getD i []).length →
      pxD (grayImage img) i j =
        (u8 (lum (pxD img i j)), u8 (lum (pxD img i j)), u8 (lum (pxD img i j))) := by
  constructor
  · unfold color_splash
    rw [if_neg (by omega)]
  · intro i j hi hj
    have hg : i < (grayGrid img).length := by
      unfold grayGrid
      simpa using hi
    unfold pxD grayImage
    rw [getD_map_lt (fun row => row.map (fun v => (u8 v, u8 v, u8 v))) (grayGrid img) i [] [] hg]
    have hrow : (grayGrid img).getD i [] = (img.getD i []).map lum := by
      unfold grayGrid
      rw [getD_map_lt (fun row => row.map lum) img i [] [] hi]
    rw [hrow]
    have hrlen : j < ((img.getD i []).map lum).length := by simpa using hj
    rw [getD_map_lt (fun v => (u8 v, u8 v, u8 v)) ((img.getD i []).map lum) j (0, 0, 0) 0 hrlen]
    rw [getD_map_lt lum (img.getD i []) j 0 (0, 0, 0) hj]

/-- Witness for C9 at a concrete 1×1 image and the empty mask set. -/
theorem C9_witness :
    color_splash [[(10, 20, 30)]] [] = Except.ok (grayImage [[(10, 20, 30)]]) ∧
    ∀ i j, i < ([[(10, 20, 30)]] : Image).length →
      j < (([[(10, 20, 30)]] : Image).getD i []).length →
      pxD (grayImage [[(10, 20, 30)]]) i j =
        (u8 (lum (pxD [[(10, 20, 30)]] i j)), u8 (lum (pxD [[(10, 20, 30)]] i j)),
          u8 (lum (pxD [[(10, 20, 30)]] i j))) :=
  C9_zero_instances_grayscale [[(10, 20, 30)]] [] (by decide)

/-! ### Claim C4 -/

/-- C4 (amended): `color_splash` performs no dimension check and raises no
`DimensionMismatch`: with at least one layer it succeeds exactly when numpy
can broadcast the collapsed mask against the image (each spatial dimension
equal, or either side equal to 1); and an exception raised while processing a
frame propagates out of the video loop and skips the writer release, rather
than aborting only the current frame. -/
theorem C4_no_dimension_check :
    (∀ img mask, mask ≠ [] →
      ((color_splash img mask).isOk = true ↔
        ((mask.headD []).length = img.length ∨ (mask.headD []).length = 1 ∨
          img.length = 1) ∧
        (((mask.headD []).headD []).length = (img.headD []).length ∨
          ((mask.headD []).headD []).length = 1 ∨ (img.headD []).length = 1))) ∧
    (∀ proc f rest e, proc f = Except.error e →
      runVideo proc (some f :: rest) = ⟨[], 0⟩) := by
  constructor
  · intro img mask hne
    have hml : 0 < mask.length := List.length_pos.mpr hne
    unfold color_splash
    rw [if_pos hml]
    by_cases hc :
      ((mask.headD []).length = img.length ∨ (mask.headD []).length = 1 ∨
        img.length = 1) ∧
      (((mask.headD []).headD []).length = (img.headD []).length ∨
        ((mask.headD []).headD []).length = 1 ∨ (img.headD []).length = 1)
    · rw [if_pos hc]
      exact ⟨fun _ => hc, fun _ => rfl⟩
    · rw [if_neg hc]
      exact ⟨fun hok => absurd hok (by simp [Except.isOk, Except.toBool]),
        fun hcc => absurd hcc hc⟩
  · intro proc f rest e he
    simp [runVideo, he]

/-- Witness for C4's amended statement: a broadcastable input is accepted. -/
theorem C4_witness : (color_splash [[(5, 5, 5)]] [[[false]]]).isOk = true :=
  (C4_no_dimension_check.1 [[(5, 5, 5)]] [[[false]]] (by decide)).mpr (by decide)

/-- Counterexample to C4 as stated: a single 1×1 mask layer against a 2×1
image — the mask's height (1) differs from the image's (2), yet
`color_splash` succeeds by broadcasting instead of failing with a
`DimensionMismatch`. -/
theorem C4_counterexample :
    (color_splash [[(10, 20, 30)], [(40, 50, 60)]] [[[true]]]).isOk = true ∧
    (([[[true]]] : Mask).headD []).length = 1 ∧
    ([[(10, 20, 30)], [(40, 50, 60)]] : Image).length = 2 := by
  exact ⟨by decide, by decide, by decide⟩


/-! ### Claim C7 -/

/-- C7: in video mode, if the first `n` reads succeed and the next read
fails, the loop stops at that read with no retry or skip, exactly the `n`
processed frames have been handed to the writer in read order, and the
writer is released exactly once on that exit path. -/
theorem C7_video_loop_stops_and_releases_once (detect : Image → Mask)
    (frames : List Image) (rest : List (Option Image))
    (hok : ∀ f ∈ frames, (processFrame detect f).isOk = true) :
    runVideo (processFrame detect) (frames.map some ++ none :: rest) =
      ⟨frames.filterMap (fun f => (processFrame detect f).toOption), 1⟩ ∧
    (frames.filterMap (fun f => (processFrame detect f).toOption)).length =
      frames.length := by
  induction frames with
  | nil => exact ⟨rfl, rfl⟩
  | cons f fs ih =>
    have hf : (processFrame detect f).isOk = true := hok f (List.mem_cons_self f fs)
    obtain ⟨g, hg⟩ : ∃ g, processFrame detect f = Except.ok g := by
      cases hpf : processFrame detect f with
      | error e =>
        rw [hpf] at hf
        simp [Except.isOk, Except.toBool] at hf
      | ok g => exact ⟨g, rfl⟩
    have ih' := ih (fun f' hf' => hok f' (List.mem_cons_of_mem f hf'))
    have hstep : runVideo (processFrame detect) ((f :: fs).map some ++ none :: rest) =
        ⟨g :: (runVideo (processFrame detect) (fs.map some ++ none :: rest)).written,
          (runVideo (processFrame detect) (fs.map some ++ none :: rest)).released⟩ := by
      rw [List.map_cons, List.cons_append]
      simp [runVideo, hg]
    constructor
    · rw [hstep, ih'.1]
      simp [List.filterMap_cons, hg, Except.toOption]
    · simp [List.filterMap_cons, hg, Except.toOption, ih'.2]
      intro a ha
      have hoka := hok a (List.mem_cons_of_mem f ha)
      cases hpa : processFrame detect a with
      | error e =>
        rw [hpa] at hoka
        simp [Except.isOk, Except.toBool] at hoka
      | ok b => simp [hpa]


/-- Witness for C7 at two concrete frames, an empty detection, and a read
failure on the third read. -/
theorem C7_witness :
    runVideo (processFrame (fun _ => ([] : Mask)))
        (([[[(1, 2, 3)]], [[(4, 5, 6)]]] : List Image).map some ++ none :: []) =
      ⟨([[[(1, 2, 3)]], [[(4, 5, 6)]]] : List Image).filterMap
        (fun f => (processFrame (fun _ => ([] : Mask)) f).toOption), 1⟩ ∧
    (([[[(1, 2, 3)]], [[(4, 5, 6)]]] : List Image).filterMap
        (fun f => (processFrame (fun _ => ([] : Mask)) f).toOption)).length =
      ([[[(1, 2, 3)]], [[(4, 5, 6)]]] : List Image).length :=
  C7_video_loop_stops_and_releases_once (fun _ => ([] : Mask))
    [[[(1, 2, 3)]], [[(4, 5, 6)]]] [] (by decide)

/-! ### Claims C2 and C3: the rasterizer -/

theorem fillLayer_dims (coords : List (ℕ × ℕ)) (h w : ℕ) :
    GridDims (fillLayer coords h w) h w := by
  constructor
  · simp [fillLayer]
  · intro row hrow
    simp only [fillLayer, List.mem_map] at hrow
    obtain ⟨i, _, rfl⟩ := hrow
    simp

theorem rasterOne_eq_none (h w : ℕ) (poly : Polygon)
    (hc : polygonCoords poly = none) :
    rasterOne h w poly = Except.error MaskError.valueError := by
  unfold rasterOne
  rw [hc]

theorem rasterOne_eq_some (h w : ℕ) (poly : Polygon) (coords : List (ℕ × ℕ))
    (hc : polygonCoords poly = some coords) :
    rasterOne h w poly =
      if coords.all (fun p => decide (p.1 < h) && decide (p.2 < w)) then
        Except.ok (fillLayer coords h w)
      else Except.error MaskError.indexError := by
  unfold rasterOne
  rw [hc]

theorem rasterOne_ok_dims (h w : ℕ) (poly : Polygon) (layer : MaskLayer)
    (hok : rasterOne h w poly = Except.ok layer) : GridDims layer h w := by
  cases hc : polygonCoords poly with
  | none =>
    rw [rasterOne_eq_none h w poly hc] at hok
    cases hok
  | some coords =>
    rw [rasterOne_eq_some h w poly coords hc] at hok
    by_cases hall : coords.all (fun p => decide (p.1 < h) && decide (p.2 < w)) = true
    · rw [if_pos hall] at hok
      cases hok
      exact fillLayer_dims coords h w
    · rw [if_neg hall] at hok
      cases hok

theorem rasterOne_isOk_iff (h w : ℕ) (poly : Polygon) :
    (rasterOne h w poly).isOk = true ↔
      ∃ coords, polygonCoords poly = some coords ∧
        ∀ p ∈ coords, p.1 < h ∧ p.2 < w := by
  cases hc : polygonCoords poly with
  | none =>
    rw [rasterOne_eq_none h w poly hc]
    simp [Except.isOk, Except.toBool]
  | some coords =>
    rw [rasterOne_eq_some h w poly coords hc]
    by_cases hall : coords.all (fun p => decide (p.1 < h) && decide (p.2 < w)) = true
    · rw [if_pos hall]
      simp only [Except.isOk, Except.toBool, true_iff]
      refine ⟨coords, rfl, ?_⟩
      intro p hp
      have hb := List.all_eq_true.mp hall p hp
      simp at hb
      exact hb
    · rw [if_neg hall]
      constructor
      · intro hfalse
        exact Bool.noConfusion hfalse
      · rintro ⟨coords', hc', hbound⟩
        rw [Option.some_inj] at hc'
        subst hc'
        refine absurd ?_ hall
        rw [List.all_eq_true]
        intro p hp
        simp [hbound p hp]

theorem load_mask_nil (h w : ℕ) : load_mask [] h w = Except.ok [] := rfl

theorem load_mask_cons_err1 (h w : ℕ) (p : Polygon) (ps : List Polygon) (e : MaskError)
    (h1 : rasterOne h w p = Except.error e) :
    load_mask (p :: ps) h w = Except.error e := by
  unfold load_mask
  rw [List.mapM_cons, h1]
  rfl

theorem load_mask_cons_err2 (h w : ℕ) (p : Polygon) (ps : List Polygon)
    (layer : MaskLayer) (e : MaskError) (h1 : rasterOne h w p = Except.ok layer)
    (h2 : load_mask ps h w = Except.error e) :
    load_mask (p :: ps) h w = Except.error e := by
  unfold load_mask at h2 ⊢
  rw [List.mapM_cons, h1, h2]
  rfl

theorem load_mask_cons_ok (h w : ℕ) (p : Polygon) (ps : List Polygon)
    (layer : MaskLayer) (layers : Mask) (h1 : rasterOne h w p = Except.ok layer)
    (h2 : load_mask ps h w = Except.ok layers) :
    load_mask (p :: ps) h w = Except.ok (layer :: layers) := by
  unfold load_mask at h2 ⊢
  rw [List.mapM_cons, h1, h2]
  rfl

/-- C2 (amended): out-of-grid fill pixels are not clipped.  `load_mask`
never writes outside the `h × w` grid (on success every layer is an `h × w`
grid and fill coordinates are nonnegative by construction), but when any fill
pixel of any polygon lies at row ≥ height or column ≥ width the fancy-index
assignment raises `IndexError` and the operation does not complete:
`load_mask` succeeds exactly when every fill pixel of every polygon is inside
the grid. -/
theorem C2_out_of_bounds_raises_instead_of_clipping :
    (∀ polys h w m, load_mask polys h w = Except.ok m →
      m.length = polys.length ∧ ∀ layer ∈ m, GridDims layer h w) ∧
    (∀ polys h w, (load_mask polys h w).isOk = true ↔
      ∀ poly ∈ polys, ∃ coords, polygonCoords poly = some coords ∧
        ∀ p ∈ coords, p.1 < h ∧ p.2 < w) := by
  constructor
  · intro polys h w m
    induction polys generalizing m with
    | nil =>
      intro hm
      unfold load_mask at hm
      rw [List.mapM_nil] at hm
      cases hm
      exact ⟨rfl, by intro layer hl; cases hl⟩
    | cons p ps ih =>
      intro hm
      unfold load_mask at hm
      rw [List.mapM_cons] at hm
      cases hr : rasterOne h w p with
      | error e =>
        rw [hr] at hm
        cases hm
      | ok layer =>
        rw [hr] at hm
        cases hrest : ps.mapM (rasterOne h w) with
        | error e =>
          rw [hrest] at hm
          cases hm
        | ok layers =>
          rw [hrest] at hm
          cases hm
          have htail := ih layers hrest
          refine ⟨by simp [htail.1], ?_⟩
          intro layer' hl'
          rcases List.mem_cons.mp hl' with rfl | hmem
          · exact rasterOne_ok_dims h w p layer' hr
          · exact htail.2 layer' hmem
  · intro polys h w
    induction polys with
    | nil =>
      rw [load_mask_nil]
      constructor
      · intro _ poly hp
        cases hp
      · intro _
        rfl
    | cons p ps ih =>
      cases hr : rasterOne h w p with
      | error e =>
        rw [load_mask_cons_err1 h w p ps e hr]
        constructor
        · intro hfalse
          exact Bool.noConfusion hfalse
        · intro hall
          have hok1 := (rasterOne_isOk_iff h w p).mpr
            (hall p (List.mem_cons_self p ps))
          rw [hr] at hok1
          exact Bool.noConfusion hok1
      | ok layer =>
        cases hrest : load_mask ps h w with
        | error e =>
          rw [load_mask_cons_err2 h w p ps layer e hr hrest]
          constructor
          · intro hfalse
            exact Bool.noConfusion hfalse
          · intro hall
            have htail := ih.mpr
              (fun poly hp => hall poly (List.mem_cons_of_mem p hp))
            rw [hrest] at htail
            exact Bool.noConfusion htail
        | ok layers =>
          rw [load_mask_cons_ok h w p ps layer layers hr hrest]
          constructor
          · intro _
            intro poly hp
            rcases List.mem_cons.mp hp with rfl | hmem
            · have hok1 : (rasterOne h w poly).isOk = true := by
                rw [hr]
                rfl
              exact (rasterOne_isOk_iff h w poly).mp hok1
            · have hok2 : (load_mask ps h w).isOk = true := by
                rw [hrest]
                rfl
              exact ih.mp hok2 poly hmem
          · intro _
            rfl


/-- Witness for C2's amended statement at an in-bounds 3×3 square on a 6×6
grid: the operation completes and every fill pixel is inside the grid. -/
theorem C2_witness :
    (load_mask [[(0, 0), (3, 0), (3, 3), (0, 3)]] 6 6).isOk = true ∧
    ∀ poly ∈ ([[(0, 0), (3, 0), (3, 3), (0, 3)]] : List Polygon), ∃ coords,
      polygonCoords poly = some coords ∧ ∀ p ∈ coords, p.1 < 6 ∧ p.2 < 6 :=
  ⟨by decide,
    (C2_out_of_bounds_raises_instead_of_clipping.2
      [[(0, 0), (3, 0), (3, 3), (0, 3)]] 6 6).mp (by decide)⟩

/-- Counterexample to C2 as stated: a 10×10 square polygon on a 4×4 grid is
not clipped — the fill coordinates reach past the grid and the operation
fails with `IndexError` instead of completing. -/
theorem C2_counterexample :
    load_mask [[(0, 0), (10, 0), (10, 10), (0, 10)]] 4 4 =
      Except.error MaskError.indexError := by decide

/-- The crossing test on a single edge from a vertex to itself never
toggles: a 1-vertex polygon has an empty fill. -/
theorem point_in_polygon_one (x0 y0 x y : ℚ) :
    point_in_polygon [x0] [y0] x y = false := by
  show (if ((y0 ≤ y ∧ y < y0) ∨ (y0 ≤ y ∧ y < y0)) ∧
      x < (x0 - x0) * (y - y0) / (y0 - y0) + x0 then !false else false) = false
  refine if_neg ?_
  rintro ⟨hor, _⟩
  rcases hor with ⟨h1, h2⟩ | ⟨h1, h2⟩ <;> exact absurd (h1.trans_lt h2) (lt_irrefl y0)

/-- The two degenerate edges of a 2-vertex polygon toggle under identical
conditions: straddling is symmetric and the interpolated x-intercepts agree. -/
theorem pip_edge_swap (x0 y0 x1 y1 x y : ℚ)
    (h : ((y0 ≤ y ∧ y < y1) ∨ (y1 ≤ y ∧ y < y0)) ∧
      x < (x1 - x0) * (y - y0) / (y1 - y0) + x0) :
    ((y1 ≤ y ∧ y < y0) ∨ (y0 ≤ y ∧ y < y1)) ∧
      x < (x0 - x1) * (y - y1) / (y0 - y1) + x1 := by
  obtain ⟨hor, hlt⟩ := h
  have hy : y1 ≠ y0 := by
    rcases hor with ⟨h1, h2⟩ | ⟨h1, h2⟩
    · exact ne_of_gt (h1.trans_lt h2)
    · exact ne_of_lt (h1.trans_lt h2)
  refine ⟨hor.symm, ?_⟩
  have key : (x0 - x1) * (y - y1) / (y0 - y1) + x1 =
      (x1 - x0) * (y - y0) / (y1 - y0) + x0 := by
    have hnz1 : y1 - y0 ≠ 0 := sub_ne_zero.mpr hy
    have hnz2 : y0 - y1 ≠ 0 := sub_ne_zero.mpr (Ne.symm hy)
    field_simp
    ring
  rw [key]
  exact hlt

/-- The crossing test is always false for a 2-vertex polygon: both edges
toggle together, so the even-odd count is even everywhere. -/
theorem point_in_polygon_two (x0 y0 x1 y1 x y : ℚ) :
    point_in_polygon [x0, x1] [y0, y1] x y = false := by
  show (if ((y1 ≤ y ∧ y < y0) ∨ (y0 ≤ y ∧ y < y1)) ∧
        x < (x0 - x1) * (y - y1) / (y0 - y1) + x1 then
      !(if ((y0 ≤ y ∧ y < y1) ∨ (y1 ≤ y ∧ y < y0)) ∧
          x < (x1 - x0) * (y - y0) / (y1 - y0) + x0 then !false else false)
    else
      (if ((y0 ≤ y ∧ y < y1) ∨ (y1 ≤ y ∧ y < y0)) ∧
          x < (x1 - x0) * (y - y0) / (y1 - y0) + x0 then !false else false)) = false
  by_cases hc : ((y0 ≤ y ∧ y < y1) ∨ (y1 ≤ y ∧ y < y0)) ∧
      x < (x1 - x0) * (y - y0) / (y1 - y0) + x0
  · rw [if_pos hc, if_pos (pip_edge_swap x0 y0 x1 y1 x y hc)]
    rfl
  · rw [if_neg hc, if_neg (fun hc1 => hc (pip_edge_swap x1 y1 x0 y0 x y hc1))]

/-- Polygons with one or two vertices produce an empty fill. -/
theorem polygonCoords_short (poly : Polygon) (hlen : poly.length = 1 ∨ poly.length = 2) :
    polygonCoords poly = some [] := by
  rcases hlen with h1 | h2
  · obtain ⟨p, rfl⟩ := List.length_eq_one.mp h1
    unfold polygonCoords draw_polygon
    simp only [List.map_cons, List.map_nil]
    congr 1
    rw [List.flatMap_eq_nil_iff]
    intro ri _
    rw [List.filterMap_eq_nil_iff]
    intro ci _
    simp [point_in_polygon_one]
  · obtain ⟨p, q, rfl⟩ : ∃ p q, poly = [p, q] := by
      cases poly with
      | nil => simp at h2
      | cons p t =>
        cases t with
        | nil => simp at h2
        | cons q t2 =>
          cases t2 with
          | nil => exact ⟨p, q, rfl⟩
          | cons r t3 =>
            simp only [List.length_cons] at h2
            omega
    unfold polygonCoords draw_polygon
    simp only [List.map_cons, List.map_nil]
    congr 1
    rw [List.flatMap_eq_nil_iff]
    intro ri _
    rw [List.filterMap_eq_nil_iff]
    intro ci _
    simp [point_in_polygon_two]

/-- C3 (amended): `load_mask` has no vertex-count check and no
`InvalidPolygon` error.  A polygon with one or two vertices is processed by
the same scanline fill and succeeds, contributing a layer whose fill is
empty (all False) rather than failing. -/
theorem C3_short_polygon_not_rejected (poly : Polygon) (h w : ℕ)
    (hlen : poly.length = 1 ∨ poly.length = 2) :
    load_mask [poly] h w = Except.ok [fillLayer [] h w] ∧
    ∀ row ∈ fillLayer [] h w, ∀ b ∈ row, b = false := by
  constructor
  · have hc := polygonCoords_short poly hlen
    have h1 : rasterOne h w poly = Except.ok (fillLayer [] h w) := by
      rw [rasterOne_eq_some h w poly [] hc]
      rfl
    exact load_mask_cons_ok h w poly [] (fillLayer [] h w) [] h1 (load_mask_nil h w)
  · intro row hrow b hb
    simp only [fillLayer, List.mem_map] at hrow
    obtain ⟨i, _, rfl⟩ := hrow
    simp only [List.mem_map] at hb
    obtain ⟨j, _, rfl⟩ := hb
    rfl

/-- Witness for C3's amended statement at a concrete 2-vertex polygon. -/
theorem C3_witness :
    load_mask [[(0, 0), (5, 5)]] 4 4 = Except.ok [fillLayer [] 4 4] ∧
    ∀ row ∈ fillLayer [] 4 4, ∀ b ∈ row, b = false :=
  C3_short_polygon_not_rejected [(0, 0), (5, 5)] 4 4 (Or.inr (by decide))

/-- Counterexample to C3 as stated: a 2-vertex polygon does not fail with
any error — `load_mask` succeeds on it. -/
theorem C3_counterexample : (load_mask [[(0, 0), (5, 5)]] 4 4).isOk = true := by
  decide


/-! ### Claims C6, C10 and C5: the loader and the registry -/

theorem except_bind_ok {e a b : Type} (x : a) (f : a → Except e b) :
    (Except.ok x >>= f) = f x := rfl

theorem except_bind_err {e a b : Type} (err : e) (f : a → Except e b) :
    ((Except.error err : Except e a) >>= f) = Except.error err := rfl

/-- The per-file contribution of one annotation file to the registry:
`none` when it is skipped, the appended record otherwise. -/
def regEntry (readImage : String → Option (ℕ × ℕ)) (dir : String)
    (a : AnnFile) : Option ImageRecord :=
  if (retainedShapes a.shapes).length = 0 then none
  else (readImage (imagePathOf dir a)).map (recordOf dir a)

theorem loadStep_skip (readImage : String → Option (ℕ × ℕ)) (dir : String)
    (acc : List ImageRecord) (a : AnnFile)
    (h : (retainedShapes a.shapes).length = 0) :
    loadStep readImage dir acc a = Except.ok acc := by
  unfold loadStep
  rw [if_pos h]

theorem loadStep_missing (readImage : String → Option (ℕ × ℕ)) (dir : String)
    (acc : List ImageRecord) (a : AnnFile)
    (h : ¬(retainedShapes a.shapes).length = 0)
    (hri : readImage (imagePathOf dir a) = none) :
    loadStep readImage dir acc a = Except.error LoadError.missingImageFile := by
  unfold loadStep
  rw [if_neg h, hri]

theorem loadStep_add (readImage : String → Option (ℕ × ℕ)) (dir : String)
    (acc : List ImageRecord) (a : AnnFile) (hw : ℕ × ℕ)
    (h : ¬(retainedShapes a.shapes).length = 0)
    (hri : readImage (imagePathOf dir a) = some hw) :
    loadStep readImage dir acc a = Except.ok (acc ++ [recordOf dir a hw]) := by
  unfold loadStep
  rw [if_neg h, hri]

theorem foldlM_loadStep (readImage : String → Option (ℕ × ℕ)) (dir : String) :
    ∀ (files : List AnnFile) (acc regs : List ImageRecord),
      List.foldlM (loadStep readImage dir) acc files = Except.ok regs →
      regs = acc ++ files.filterMap (regEntry readImage dir) := by
  intro files
  induction files with
  | nil =>
    intro acc regs h
    rw [List.foldlM_nil] at h
    cases h
    simp
  | cons a t ih =>
    intro acc regs h
    rw [List.foldlM_cons] at h
    by_cases hskip : (retainedShapes a.shapes).length = 0
    · rw [loadStep_skip readImage dir acc a hskip, except_bind_ok] at h
      rw [ih acc regs h, List.filterMap_cons_none (by rw [regEntry, if_pos hskip])]
    · cases hri : readImage (imagePathOf dir a) with
      | none =>
        rw [loadStep_missing readImage dir acc a hskip hri, except_bind_err] at h
        cases h
      | some hw =>
        rw [loadStep_add readImage dir acc a hw hskip hri, except_bind_ok] at h
        rw [ih _ regs h, List.filterMap_cons_some
          (by rw [regEntry, if_neg hskip, hri, Option.map_some'])]
        simp

/-- On success, the registry built by `load_balloon` is exactly the ordered
per-file contributions of the kept annotation files. -/
theorem load_balloon_ok_regs (readImage : String → Option (ℕ × ℕ))
    (dd sub : String) (files : List AnnFile) (regs : List ImageRecord)
    (h : load_balloon readImage dd sub files = Except.ok regs) :
    regs = files.filterMap (regEntry readImage (osJoin dd sub)) := by
  unfold load_balloon at h
  by_cases hs : sub = "train" ∨ sub = "val"
  · rw [if_pos hs] at h
    simpa using foldlM_loadStep readImage (osJoin dd sub) files [] regs h
  · rw [if_neg hs] at h
    cases h

/-- Every record of a successfully built registry comes from a kept file
whose image was readable. -/
theorem mem_load_regs (readImage : String → Option (ℕ × ℕ)) (dd sub : String)
    (files : List AnnFile) (regs : List ImageRecord)
    (h : load_balloon readImage dd sub files = Except.ok regs)
    (rec : ImageRecord) (hrec : rec ∈ regs) :
    ∃ a ∈ files, ∃ hw, readImage (imagePathOf (osJoin dd sub) a) = some hw ∧
      (retainedShapes a.shapes).length ≠ 0 ∧
      rec = recordOf (osJoin dd sub) a hw := by
  rw [load_balloon_ok_regs readImage dd sub files regs h] at hrec
  rw [List.mem_filterMap] at hrec
  obtain ⟨a, ha, hfa⟩ := hrec
  by_cases hskip : (retainedShapes a.shapes).length = 0
  · rw [regEntry, if_pos hskip] at hfa
    cases hfa
  · cases hri : readImage (imagePathOf (osJoin dd sub) a) with
    | none =>
      rw [regEntry, if_neg hskip, hri] at hfa
      cases hfa
    | some hw =>
      rw [regEntry, if_neg hskip, hri, Option.map_some', Option.some_inj] at hfa
      exact ⟨a, ha, hw, hri, hskip, hfa.symm⟩

theorem retained_lookup_isSome (shapes : List Shape) :
    ∀ s ∈ retainedShapes shapes, (lookupLabel s.label).isSome = true := by
  intro s hs
  unfold retainedShapes at hs
  rw [List.mem_filter] at hs
  have hb := hs.2
  simp only [Bool.and_eq_true] at hb
  exact hb.1

theorem filterMap_lookup_length (l : List Shape)
    (hall : ∀ s ∈ l, (lookupLabel s.label).isSome = true) :
    ((l.map (fun s => s.label)).filterMap lookupLabel).length = l.length := by
  induction l with
  | nil => rfl
  | cons s t ih =>
    obtain ⟨v, hv⟩ := Option.isSome_iff_exists.mp (hall s (List.mem_cons_self s t))
    rw [List.map_cons, List.filterMap_cons_some hv, List.length_cons, List.length_cons,
      ih (fun s' hs' => hall s' (List.mem_cons_of_mem s hs'))]

/-- C6: a shape is retained iff its `shape_type` is `"polygon"` and its
label is in the fixed vocabulary `labelz`; the label
`"blocked the crosswalk"` is not in the vocabulary (only the transposed
spelling is), so every shape carrying it is dropped; and a successful load
registers exactly the files whose retained list is nonempty — dropping and
skipping never raise. -/
theorem C6_filter_and_silent_skip :
    (∀ shapes (s : Shape), s ∈ retainedShapes shapes ↔
      (s ∈ shapes ∧ s.shape_type = "polygon" ∧ (lookupLabel s.label).isSome = true)) ∧
    (lookupLabel ("blocked the crosswalk") = none) ∧
    (∀ shapes (s : Shape), s.label = "blocked the crosswalk" →
      s ∉ retainedShapes shapes) ∧
    (∀ readImage dd sub files regs,
      load_balloon readImage dd sub files = Except.ok regs →
      regs = files.filterMap (regEntry readImage (osJoin dd sub))) := by
  refine ⟨?_, by decide, ?_, load_balloon_ok_regs⟩
  · intro shapes s
    unfold retainedShapes
    rw [List.mem_filter]
    constructor
    · rintro ⟨hmem, hcond⟩
      simp only [Bool.and_eq_true, beq_iff_eq] at hcond
      exact ⟨hmem, hcond.2, hcond.1⟩
    · rintro ⟨hmem, hst, hsl⟩
      refine ⟨hmem, ?_⟩
      simp only [Bool.and_eq_true, beq_iff_eq]
      exact ⟨hsl, hst⟩
  · intro shapes s hlab hmem
    have hsome := retained_lookup_isSome shapes s hmem
    rw [hlab] at hsome
    have hnone : lookupLabel ("blocked the crosswalk") = none := by decide
    rw [hnone] at hsome
    exact Bool.noConfusion hsome

/-- A reading collaborator and two annotation files for the loader
witnesses: the first file's only shape is labeled with the misspelled-in-
vocabulary label and is dropped, the second is kept. -/
def sampleRead : String → Option (ℕ × ℕ) := fun _ => some (20, 20)

def sampleFiles : List AnnFile :=
  [⟨"img1", [⟨"blocked the crosswalk", "polygon", [(0, 0), (1, 0), (1, 1)]⟩]⟩,
   ⟨"img2", [⟨"blocked bike lane", "polygon", [(0, 0), (1, 0), (1, 1)]⟩]⟩]

/-- Witness for C6 at a concrete load: the registry equals the filtered
per-file contributions. -/
theorem C6_witness :
    ∃ regs, load_balloon sampleRead ("d") ("train") sampleFiles = Except.ok regs ∧
      regs = sampleFiles.filterMap (regEntry sampleRead (osJoin ("d") ("train"))) := by
  have hok : (load_balloon sampleRead ("d") ("train") sampleFiles).isOk = true := by decide
  obtain ⟨regs, hregs⟩ : ∃ regs,
      load_balloon sampleRead ("d") ("train") sampleFiles = Except.ok regs := by
    cases hl : load_balloon sampleRead ("d") ("train") sampleFiles with
    | error e =>
      rw [hl] at hok
      exact Bool.noConfusion hok
    | ok r => exact ⟨r, rfl⟩
  exact ⟨regs, hregs,
    C6_filter_and_silent_skip.2.2.2 sampleRead ("d") ("train") sampleFiles regs hregs⟩

/-- C10: every record the load adds to the registry satisfies
`len(polygons) == len(num_ids)`, and its `num_ids` are exactly the
vocabulary-mapped integers of its retained shapes' labels, in the same
order as the retained polygons. -/
theorem C10_polygons_class_ids_aligned (readImage : String → Option (ℕ × ℕ))
    (dd sub : String) (files : List AnnFile) (regs : List ImageRecord)
    (h : load_balloon readImage dd sub files = Except.ok regs) :
    ∀ rec ∈ regs, rec.polygons.length = rec.num_ids.length ∧
      ∃ a ∈ files,
        rec.polygons = (retainedShapes a.shapes).map (fun s => s.points) ∧
        rec.num_ids =
          ((retainedShapes a.shapes).map (fun s => s.label)).filterMap lookupLabel := by
  intro rec hrec
  obtain ⟨a, ha, hw, hri, hne, hrec⟩ :=
    mem_load_regs readImage dd sub files regs h rec hrec
  subst hrec
  refine ⟨?_, a, ha, rfl, rfl⟩
  show ((retainedShapes a.shapes).map (fun (s : Shape) => s.points)).length =
    (((retainedShapes a.shapes).map (fun (s : Shape) => s.label)).filterMap
      lookupLabel).length
  rw [List.length_map, filterMap_lookup_length _ (retained_lookup_isSome a.shapes)]

/-- Witness for C10 at the concrete load of `sampleFiles`. -/
theorem C10_witness :
    ∃ regs, load_balloon sampleRead ("d") ("train") sampleFiles = Except.ok regs ∧
      ∀ rec ∈ regs, rec.polygons.length = rec.num_ids.length ∧
        ∃ a ∈ sampleFiles,
          rec.polygons = (retainedShapes a.shapes).map (fun (s : Shape) => s.points) ∧
          rec.num_ids =
            ((retainedShapes a.shapes).map (fun (s : Shape) => s.label)).filterMap
              lookupLabel := by
  have hok : (load_balloon sampleRead ("d") ("train") sampleFiles).isOk = true := by decide
  obtain ⟨regs, hregs⟩ : ∃ regs,
      load_balloon sampleRead ("d") ("train") sampleFiles = Except.ok regs := by
    cases hl : load_balloon sampleRead ("d") ("train") sampleFiles with
    | error e =>
      rw [hl] at hok
      exact Bool.noConfusion hok
    | ok r => exact ⟨r, rfl⟩
  exact ⟨regs, hregs,
    C10_polygons_class_ids_aligned sampleRead ("d") ("train") sampleFiles regs hregs⟩

theorem image_reference_reported (parentRef : ImageInfo → String)
    (info : ImageInfo) (hs : info.source = "reported") :
    image_reference parentRef info = some info.path := by
  unfold image_reference
  rw [if_pos hs]

theorem image_reference_other (parentRef : ImageInfo → String)
    (info : ImageInfo) (hs : info.source ≠ "reported") :
    image_reference parentRef info = none := by
  unfold image_reference
  rw [if_neg hs]

/-- C5 (amended): `image_reference` returns the record's path for every
registry record (whose source is always the reported one); for a record
whose source is NOT the reported source, the parent-class fallback is
invoked but its result is discarded — the caller receives `None`, not the
fallback's result. -/
theorem C5_reference_discards_parent_result :
    (∀ (parentRef : ImageInfo → String) (info : ImageInfo),
      info.source = "reported" → image_reference parentRef info = some info.path) ∧
    (∀ (parentRef : ImageInfo → String) (info : ImageInfo),
      info.source ≠ "reported" → image_reference parentRef info = none) ∧
    (∀ readImage dd sub files regs,
      load_balloon readImage dd sub files = Except.ok regs →
      ∀ rec ∈ regs, ∀ (parentRef : ImageInfo → String),
        image_reference parentRef ⟨rec.source, rec.path⟩ = some rec.path) := by
  refine ⟨image_reference_reported, image_reference_other, ?_⟩
  intro readImage dd sub files regs h rec hrec parentRef
  obtain ⟨a, _, hw, _, _, hrec⟩ :=
    mem_load_regs readImage dd sub files regs h rec hrec
  subst hrec
  exact image_reference_reported parentRef _ rfl

/-- An arbitrary concrete parent-class `image_reference` for C5. -/
def cexParent : ImageInfo → String := fun _ => "parent-path"

/-- Witness for C5's amended statement at concrete records. -/
theorem C5_witness :
    image_reference cexParent ⟨"reported", "/img.jpg"⟩ = some ("/img.jpg") ∧
    image_reference cexParent ⟨"coco", "/img.jpg"⟩ = none :=
  ⟨C5_reference_discards_parent_result.1 cexParent ⟨"reported", "/img.jpg"⟩ rfl,
    C5_reference_discards_parent_result.2.1 cexParent ⟨"coco", "/img.jpg"⟩ (by decide)⟩

/-- Counterexample to C5 as stated: for a record whose source is not the
reported one, the method returns `None`, not the parent-class fallback's
result. -/
theorem C5_counterexample :
    image_reference cexParent ⟨"coco", "/img.jpg"⟩ = none ∧
    image_reference cexParent ⟨"coco", "/img.jpg"⟩ ≠
      some (cexParent ⟨"coco", "/img.jpg"⟩) := by
  exact ⟨by decide, by decide⟩

end Balloon
